/-
  Verification of the Rectangle + Random Circles DXF Creator core
  (src/main_Version10.py) against its natural-language specification.

  Shallow embedding conventions:
  * millimetre quantities are modelled as exact rationals (ℚ);
  * the global `random` module is modelled as an injected stream
    `rng : ℕ → ℚ × ℚ` of unit samples, one pair per candidate draw;
    `random.uniform(a, b)` becomes `uniform a b t = a + (b - a) * t`;
  * `math.hypot dx dy < m` is expressed without square roots as
    `0 < m ∧ dx^2 + dy^2 < m^2` (equivalent, since `hypot ≥ 0`);
  * the tkinter shell state touched by an operation (the circle list,
    the warning popup) is part of the operation's explicit result.
-/
import Mathlib

namespace DxfApp

/-- The rectangle stored in `self.rect`: top-left origin plus extent, in mm. -/
structure Rect where
  x0_mm : ℚ
  y0_mm : ℚ
  w_mm : ℚ
  h_mm : ℚ
deriving DecidableEq, Repr

/-- One entry of `self.circles`: centre and diameter in mm. -/
structure Circle where
  cx_mm : ℚ
  cy_mm : ℚ
  d_mm : ℚ
deriving DecidableEq, Repr

/-- `random.uniform(a, b)` with unit sample `t`: `a + (b - a) * t`. -/
def uniform (a b t : ℚ) : ℚ := a + (b - a) * t

/-- The overlap test of the placement loops: candidate centre `(cx, cy)` of
radius `r` is too close to circle `c` when
`math.hypot (cx - c.cx) (cy - c.cy) < r + c.d / 2 + min_space`;
stated on squares to stay inside ℚ (`hypot` is nonnegative, so
`hypot < m` is the same as `0 < m` and `hypot² < m²`). -/
def tooClose (cx cy r s : ℚ) (c : Circle) : Bool :=
  decide (0 < r + c.d_mm / 2 + s ∧
    (cx - c.cx_mm) ^ 2 + (cy - c.cy_mm) ^ 2 < (r + c.d_mm / 2 + s) ^ 2)

/-- `cx = random.uniform(x0 + r + min_space, x0 + w - r - min_space)`,
drawn from the injected stream at position `k`. -/
def candX (rect : Rect) (r s : ℚ) (rng : ℕ → ℚ × ℚ) (k : ℕ) : ℚ :=
  uniform (rect.x0_mm + r + s) (rect.x0_mm + rect.w_mm - r - s) (rng k).1

/-- `cy = random.uniform(y0 + r + min_space, y0 + h - r - min_space)`,
drawn from the injected stream at position `k`. -/
def candY (rect : Rect) (r s : ℚ) (rng : ℕ → ℚ × ℚ) (k : ℕ) : ℚ :=
  uniform (rect.y0_mm + r + s) (rect.y0_mm + rect.h_mm - r - s) (rng k).2

/-- The inner `while attempts < max_attempts_per_circle` loop shared by
`add_random_circles` (budget 600, checks `existing` then the circles
accepted in this call) and `mix_circles` (budget 800, `existing = []`):
draw candidates until one passes the overlap test or the budget `fuel`
runs out.  Returns the accepted circle (if any) and the stream position
after the loop. -/
def try_place (rect : Rect) (r s diam : ℚ) (existing newC : List Circle)
    (rng : ℕ → ℚ × ℚ) : ℕ → ℕ → Option Circle × ℕ
  | idx, 0 => (none, idx)
  | idx, Nat.succ fuel =>
    if existing.any (tooClose (candX rect r s rng idx) (candY rect r s rng idx) r s)
        || newC.any (tooClose (candX rect r s rng idx) (candY rect r s rng idx) r s) then
      try_place rect r s diam existing newC rng (idx + 1) fuel
    else
      (some ⟨candX rect r s rng idx, candY rect r s rng idx, diam⟩, idx + 1)

/-- The `for i in range(count)` loop of `add_random_circles`: place one
circle per slot with 600 attempts; on the first slot whose budget is
exhausted, `break` and return the circles accepted so far together with
the `placed` counter. -/
def place_loop (rect : Rect) (diam s : ℚ) (existing : List Circle)
    (rng : ℕ → ℚ × ℚ) : ℕ → List Circle → ℕ → ℕ → List Circle × ℕ
  | 0, nc, p, _ => (nc, p)
  | Nat.succ n, nc, p, idx =>
    match try_place rect (diam / 2) s diam existing nc rng idx 600 with
    | (some c, j) => place_loop rect diam s existing rng n (nc ++ [c]) (p + 1) j
    | (none, _) => (nc, p)

/-- Result of `add_random_circles`: either the feasibility gate fired
(warning popup, `self.circles` untouched, nothing drawn) or the new
collection `circles ++ new_circles` together with the `placed` count. -/
inductive PlaceResult where
  | infeasible
  | ok (circles : List Circle) (satisfiedCount : ℕ)
deriving DecidableEq, Repr

/-- `add_random_circles` (src/main_Version10.py:244-313) after parameter
validation: feasibility gate `w <= 2*(r+min_space) or h <= 2*(r+min_space)`,
then the bounded-retry placement loop; on success the new circles are
appended to the existing collection. -/
def add_random_circles (rect : Rect) (diam : ℚ) (count : ℕ) (s : ℚ)
    (circles : List Circle) (rng : ℕ → ℚ × ℚ) : PlaceResult :=
  if rect.w_mm ≤ 2 * (diam / 2 + s) ∨ rect.h_mm ≤ 2 * (diam / 2 + s) then
    PlaceResult.infeasible
  else
    let res := place_loop rect diam s circles rng count [] 0 0
    PlaceResult.ok (circles ++ res.1) res.2

/-- The circle collection and placed count as the shell observes them after
`add_random_circles` returns: on the infeasible early return `self.circles`
is left unchanged and nothing was placed. -/
def add_random_circles_state (rect : Rect) (diam : ℚ) (count : ℕ) (s : ℚ)
    (circles : List Circle) (rng : ℕ → ℚ × ℚ) : List Circle × ℕ :=
  match add_random_circles rect diam count s circles rng with
  | PlaceResult.infeasible => (circles, 0)
  | PlaceResult.ok out n => (out, n)

/-- `diameters = [c["d_mm"] for c in self.circles]; diameters.sort(reverse=True)`. -/
def sortDiameters (circles : List Circle) : List ℚ :=
  (circles.map Circle.d_mm).insertionSort (· ≥ ·)

/-- The `for diam in diameters` loop of `mix_circles`: per-diameter
feasibility check (skip on failure), then 800 bounded attempts checked
only against the circles already placed in this pass; an exhausted
budget skips that one diameter and continues. -/
def mix_loop (rect : Rect) (s : ℚ) (rng : ℕ → ℚ × ℚ) :
    List ℚ → List Circle → ℕ → ℕ → List Circle × ℕ
  | [], nc, p, _ => (nc, p)
  | d :: ds, nc, p, idx =>
    if rect.w_mm ≤ 2 * (d / 2 + s) ∨ rect.h_mm ≤ 2 * (d / 2 + s) then
      mix_loop rect s rng ds nc p idx
    else
      match try_place rect (d / 2) s d [] nc rng idx 800 with
      | (some c, j) => mix_loop rect s rng ds (nc ++ [c]) (p + 1) j
      | (none, j) => mix_loop rect s rng ds nc p j

/-- `mix_circles` (src/main_Version10.py:315-373): early return on an empty
collection, otherwise re-place the sorted diameters from scratch and
replace `self.circles` wholesale.  The result is the new collection, the
`placed` count, and whether the `placed < old_count` warning popup fires. -/
def mix_circles (rect : Rect) (s : ℚ) (circles : List Circle)
    (rng : ℕ → ℚ × ℚ) : List Circle × ℕ × Bool :=
  if circles.isEmpty then (circles, 0, false)
  else
    let res := mix_loop rect s rng (sortDiameters circles) [] 0 0
    (res.1, res.2, decide (res.2 < circles.length))

/-- `CANVAS_MARGIN_PX = 24`. -/
def CANVAS_MARGIN_PX : ℚ := 24

/-- `compute_px_per_mm_and_offset` (src/main_Version10.py:376-420):
auto-fit or manual scale, zoom multiplier, margin offsets.  Returns
`(effective_px_per_mm, x_offset_px, y_offset_px, bbox_min_x, bbox_min_y)`. -/
def compute_px_per_mm_and_offset (rect : Rect) (canvas_w canvas_h : ℚ)
    (auto_fit : Bool) (manual_px zoom : ℚ) : ℚ × ℚ × ℚ × ℚ × ℚ :=
  let min_x := rect.x0_mm
  let max_x := rect.x0_mm + rect.w_mm
  let min_y := rect.y0_mm
  let max_y := rect.y0_mm + rect.h_mm
  let width_mm := max (max_x - min_x) 0.000001
  let height_mm := max (max_y - min_y) 0.000001
  if auto_fit then
    let avail_w := max 1 (canvas_w - 2 * CANVAS_MARGIN_PX)
    let avail_h := max 1 (canvas_h - 2 * CANVAS_MARGIN_PX)
    let base0 := min (avail_w / width_mm) (avail_h / height_mm)
    let base := if base0 ≤ 0 then 1 else base0
    let eff := base * zoom
    (eff, CANVAS_MARGIN_PX - min_x * eff, CANVAS_MARGIN_PX - min_y * eff, min_x, min_y)
  else
    let manual := if manual_px ≤ 0 then 1 else manual_px
    (manual * zoom, 0, 0, 0, 0)

/-- `zoom_in` (src/main_Version10.py:223-227): multiply by 1.2, cap at 10. -/
def zoom_in (z : ℚ) : ℚ := min (z * 1.2) 10.0

/-- `zoom_out` (src/main_Version10.py:229-233): divide by 1.2, floor at 0.05. -/
def zoom_out (z : ℚ) : ℚ := max (z / 1.2) 0.05

/-- `zoom_reset` (src/main_Version10.py:235-237): back to 1.0. -/
def zoom_reset (_ : ℚ) : ℚ := 1.0

/-- `canvas_h_mm = self.canvas_h / effective_px_per_mm`, falling back to the
raw pixel height when the division fails (degenerate scale). -/
def canvas_h_mm (canvas_h eff : ℚ) : ℚ :=
  if eff = 0 then canvas_h else canvas_h / eff

/-- The rectangle corner list of `save_dxf`:
top-left, top-right, bottom-right, bottom-left in model mm. -/
def rect_points_model (rect : Rect) : List (ℚ × ℚ) :=
  [(rect.x0_mm, rect.y0_mm), (rect.x0_mm + rect.w_mm, rect.y0_mm),
   (rect.x0_mm + rect.w_mm, rect.y0_mm + rect.h_mm), (rect.x0_mm, rect.y0_mm + rect.h_mm)]

/-- The geometry handed to the DXF sink by `save_dxf`
(src/main_Version10.py:568-592): a closed 4-point polyline and one
circle primitive (centre, radius) per collection entry, every Y flipped
as `canvas_h_mm - y`. -/
structure DxfOut where
  polyline : List (ℚ × ℚ)
  closed : Bool
  circleSpecs : List ((ℚ × ℚ) × ℚ)
deriving DecidableEq, Repr

/-- The export transform of `save_dxf`: corner and circle coordinates after
the Y flip, with `H` the computed `canvas_h_mm`. -/
def save_dxf_geometry (rect : Rect) (circles : List Circle) (H : ℚ) : DxfOut :=
  { polyline := (rect_points_model rect).map (fun p => (p.1, H - p.2)),
    closed := true,
    circleSpecs := circles.map (fun c => ((c.cx_mm, H - c.cy_mm), c.d_mm / 2)) }

/-- Squared distance between two stored circle centres, in mm². -/
def circleDist2 (a b : Circle) : ℚ :=
  (a.cx_mm - b.cx_mm) ^ 2 + (a.cy_mm - b.cy_mm) ^ 2

/-- The spec's separation property for a pair of circles: Euclidean centre
distance at least the sum of the radii plus the minimum spacing. -/
def sepR (s : ℚ) (a b : Circle) : Prop :=
  ((a.d_mm / 2 + b.d_mm / 2 + s : ℚ) : ℝ) ≤ Real.sqrt ((circleDist2 a b : ℚ) : ℝ)

/-- The spec's edge-clearance box for a placed circle: its centre lies in
`[x0+r+s, x0+w-r-s] × [y0+r+s, y0+h-r-s]` with `r` the circle's radius. -/
def centerInBox (rect : Rect) (s : ℚ) (c : Circle) : Prop :=
  rect.x0_mm + c.d_mm / 2 + s ≤ c.cx_mm ∧
  c.cx_mm ≤ rect.x0_mm + rect.w_mm - c.d_mm / 2 - s ∧
  rect.y0_mm + c.d_mm / 2 + s ≤ c.cy_mm ∧
  c.cy_mm ≤ rect.y0_mm + rect.h_mm - c.d_mm / 2 - s

/-- The default rectangle of the app: (10, 10, 800, 2000) mm. -/
def rect0 : Rect := ⟨10, 10, 800, 2000⟩

/-- A deterministic random source: every unit sample is 1/2. -/
def rngHalf : ℕ → ℚ × ℚ := fun _ => (1/2, 1/2)

lemma tooClose_false_iff {cx cy r s : ℚ} {c : Circle} :
    tooClose cx cy r s c = false ↔
      (0 < r + c.d_mm / 2 + s →
        (r + c.d_mm / 2 + s) ^ 2 ≤ (cx - c.cx_mm) ^ 2 + (cy - c.cy_mm) ^ 2) := by
  simp [tooClose, not_lt]

lemma sepR_of_tooClose_false {s : ℚ} {a b : Circle}
    (h : tooClose a.cx_mm a.cy_mm (a.d_mm / 2) s b = false) : sepR s a b := by
  rw [tooClose_false_iff] at h
  unfold sepR
  by_cases hm : 0 < a.d_mm / 2 + b.d_mm / 2 + s
  · have h2 := h hm
    have h3 : ((a.d_mm / 2 + b.d_mm / 2 + s : ℚ) : ℝ) ^ 2 ≤ ((circleDist2 a b : ℚ) : ℝ) := by
      unfold circleDist2
      exact_mod_cast h2
    exact Real.le_sqrt_of_sq_le h3
  · push_neg at hm
    have h0 : ((a.d_mm / 2 + b.d_mm / 2 + s : ℚ) : ℝ) ≤ 0 := by exact_mod_cast hm
    exact h0.trans (Real.sqrt_nonneg _)

lemma sepR_symm {s : ℚ} {a b : Circle} (h : sepR s a b) : sepR s b a := by
  unfold sepR circleDist2 at h ⊢
  have e1 : b.d_mm / 2 + a.d_mm / 2 + s = a.d_mm / 2 + b.d_mm / 2 + s := by ring
  have e2 : (b.cx_mm - a.cx_mm) ^ 2 + (b.cy_mm - a.cy_mm) ^ 2
      = (a.cx_mm - b.cx_mm) ^ 2 + (a.cy_mm - b.cy_mm) ^ 2 := by ring
  rw [e1, e2]
  exact h

lemma try_place_some {rect : Rect} {r s diam : ℚ} {ex nc : List Circle}
    {rng : ℕ → ℚ × ℚ} :
    ∀ {fuel idx : ℕ} {c : Circle} {j : ℕ},
      try_place rect r s diam ex nc rng idx fuel = (some c, j) →
      c.d_mm = diam ∧
      (∀ o ∈ ex, tooClose c.cx_mm c.cy_mm r s o = false) ∧
      (∀ o ∈ nc, tooClose c.cx_mm c.cy_mm r s o = false) ∧
      ∃ k, c.cx_mm = candX rect r s rng k ∧ c.cy_mm = candY rect r s rng k := by
  intro fuel
  induction fuel with
  | zero => intro idx c j h; simp [try_place] at h
  | succ m ih =>
    intro idx c j h
    simp only [try_place] at h
    by_cases hc : (ex.any (tooClose (candX rect r s rng idx) (candY rect r s rng idx) r s)
        || nc.any (tooClose (candX rect r s rng idx) (candY rect r s rng idx) r s)) = true
    · rw [if_pos hc] at h
      exact ih h
    · rw [if_neg hc] at h
      injection h with h1 h2
      injection h1 with h1
      subst h1
      simp only [Bool.not_eq_true, Bool.or_eq_false_iff, List.any_eq_false,
        Bool.not_eq_true] at hc
      exact ⟨rfl, fun o ho => hc.1 o ho, fun o ho => hc.2 o ho, idx, rfl, rfl⟩

lemma try_place_snd_le {rect : Rect} {r s diam : ℚ} {ex nc : List Circle}
    {rng : ℕ → ℚ × ℚ} :
    ∀ (fuel idx : ℕ), (try_place rect r s diam ex nc rng idx fuel).2 ≤ idx + fuel := by
  intro fuel
  induction fuel with
  | zero => intro idx; simp [try_place]
  | succ m ih =>
    intro idx
    simp only [try_place]
    split
    · exact (ih (idx + 1)).trans (by omega)
    · simp only []
      omega

lemma try_place_none_of_reject {rect : Rect} {r s diam : ℚ} {ex nc : List Circle}
    {rng : ℕ → ℚ × ℚ}
    (hrej : ∀ k, (ex.any (tooClose (candX rect r s rng k) (candY rect r s rng k) r s)
        || nc.any (tooClose (candX rect r s rng k) (candY rect r s rng k) r s)) = true) :
    ∀ (fuel idx : ℕ), try_place rect r s diam ex nc rng idx fuel = (none, idx + fuel) := by
  intro fuel
  induction fuel with
  | zero => intro idx; simp [try_place]
  | succ m ih =>
    intro idx
    simp only [try_place, if_pos (hrej idx)]
    rw [ih (idx + 1)]
    congr 1
    omega

lemma uniform_mem {a b t : ℚ} (h0 : 0 ≤ t) (h1 : t ≤ 1) (hab : a ≤ b) :
    a ≤ uniform a b t ∧ uniform a b t ≤ b := by
  unfold uniform
  constructor
  · nlinarith
  · nlinarith

lemma try_place_some_box {rect : Rect} {r s diam : ℚ} {ex nc : List Circle}
    {rng : ℕ → ℚ × ℚ}
    (hrng : ∀ n, 0 ≤ (rng n).1 ∧ (rng n).1 ≤ 1 ∧ 0 ≤ (rng n).2 ∧ (rng n).2 ≤ 1)
    (hx : rect.x0_mm + r + s ≤ rect.x0_mm + rect.w_mm - r - s)
    (hy : rect.y0_mm + r + s ≤ rect.y0_mm + rect.h_mm - r - s)
    (hr : diam / 2 = r)
    {fuel idx : ℕ} {c : Circle} {j : ℕ}
    (h : try_place rect r s diam ex nc rng idx fuel = (some c, j)) :
    centerInBox rect s c := by
  obtain ⟨hd, -, -, k, hcx, hcy⟩ := try_place_some h
  obtain ⟨u1, u2, u3, u4⟩ := hrng k
  have hbx := uniform_mem u1 u2 hx
  have hby := uniform_mem u3 u4 hy
  unfold candX at hcx
  unfold candY at hcy
  unfold centerInBox
  rw [hcx, hcy, hd, hr]
  exact ⟨hbx.1, hbx.2, hby.1, hby.2⟩

lemma place_loop_spec {rect : Rect} {diam s : ℚ} {ex : List Circle} {rng : ℕ → ℚ × ℚ} :
    ∀ (n : ℕ) (nc : List Circle) (p idx : ℕ), ∃ tail : List Circle,
      place_loop rect diam s ex rng n nc p idx = (nc ++ tail, p + tail.length) ∧
      tail.length ≤ n ∧ (∀ c ∈ tail, c.d_mm = diam) := by
  intro n
  induction n with
  | zero =>
    intro nc p idx
    exact ⟨[], by simp [place_loop], by simp, by simp⟩
  | succ m ih =>
    intro nc p idx
    rcases htp : try_place rect (diam / 2) s diam ex nc rng idx 600 with ⟨oc, j⟩
    cases oc with
    | none =>
      refine ⟨[], ?_, by simp, by simp⟩
      simp only [place_loop, htp]
      simp
    | some c =>
      obtain ⟨tail, heq, hlen, hmem⟩ := ih (nc ++ [c]) (p + 1) j
      refine ⟨c :: tail, ?_, by simp; omega, ?_⟩
      · simp only [place_loop, htp]
        rw [heq]
        simp only [Prod.mk.injEq]
        constructor
        · simp
        · simp only [List.length_cons]
          omega
      · intro c2 hc2
        rcases List.mem_cons.1 hc2 with h1 | h1
        · subst h1
          exact (try_place_some htp).1
        · exact hmem c2 h1

lemma place_loop_pairwise {rect : Rect} {diam s : ℚ} {ex : List Circle} {rng : ℕ → ℚ × ℚ} :
    ∀ (n : ℕ) (nc : List Circle) (p idx : ℕ),
      (ex ++ nc).Pairwise (sepR s) →
      (ex ++ (place_loop rect diam s ex rng n nc p idx).1).Pairwise (sepR s) := by
  intro n
  induction n with
  | zero =>
    intro nc p idx h
    simpa [place_loop] using h
  | succ m ih =>
    intro nc p idx h
    rcases htp : try_place rect (diam / 2) s diam ex nc rng idx 600 with ⟨oc, j⟩
    cases oc with
    | none =>
      simp only [place_loop, htp]
      exact h
    | some c =>
      simp only [place_loop, htp]
      apply ih
      obtain ⟨hd, hex, hnc, -⟩ := try_place_some htp
      rw [← List.append_assoc, List.pairwise_append]
      refine ⟨h, List.pairwise_singleton _ _, ?_⟩
      intro a ha b hb
      rw [List.mem_singleton] at hb
      rw [hb]
      have hf : tooClose c.cx_mm c.cy_mm (c.d_mm / 2) s a = false := by
        rw [hd]
        rcases List.mem_append.1 ha with h1 | h1
        · exact hex a h1
        · exact hnc a h1
      exact sepR_symm (sepR_of_tooClose_false hf)

lemma place_loop_box {rect : Rect} {diam s : ℚ} {ex : List Circle} {rng : ℕ → ℚ × ℚ}
    (hrng : ∀ n, 0 ≤ (rng n).1 ∧ (rng n).1 ≤ 1 ∧ 0 ≤ (rng n).2 ∧ (rng n).2 ≤ 1)
    (hx : rect.x0_mm + diam / 2 + s ≤ rect.x0_mm + rect.w_mm - diam / 2 - s)
    (hy : rect.y0_mm + diam / 2 + s ≤ rect.y0_mm + rect.h_mm - diam / 2 - s) :
    ∀ (n : ℕ) (nc : List Circle) (p idx : ℕ),
      (∀ c ∈ nc, centerInBox rect s c) →
      ∀ c ∈ (place_loop rect diam s ex rng n nc p idx).1, centerInBox rect s c := by
  intro n
  induction n with
  | zero =>
    intro nc p idx h
    simpa [place_loop] using h
  | succ m ih =>
    intro nc p idx h
    rcases htp : try_place rect (diam / 2) s diam ex nc rng idx 600 with ⟨oc, j⟩
    cases oc with
    | none =>
      simp only [place_loop, htp]
      exact h
    | some c =>
      simp only [place_loop, htp]
      apply ih
      intro c2 hc2
      rcases List.mem_append.1 hc2 with h1 | h1
      · exact h c2 h1
      · rw [List.mem_singleton] at h1
        subst h1
        exact try_place_some_box hrng hx hy rfl htp

lemma mix_loop_spec {rect : Rect} {s : ℚ} {rng : ℕ → ℚ × ℚ} :
    ∀ (ds : List ℚ) (nc : List Circle) (p idx : ℕ), ∃ tail : List Circle,
      mix_loop rect s rng ds nc p idx = (nc ++ tail, p + tail.length) ∧
      tail.length ≤ ds.length ∧ ∀ c ∈ tail, c.d_mm ∈ ds := by
  intro ds
  induction ds with
  | nil =>
    intro nc p idx
    exact ⟨[], by simp [mix_loop], by simp, by simp⟩
  | cons d ds ih =>
    intro nc p idx
    by_cases hc : rect.w_mm ≤ 2 * (d / 2 + s) ∨ rect.h_mm ≤ 2 * (d / 2 + s)
    · obtain ⟨tail, heq, hlen, hmem⟩ := ih nc p idx
      refine ⟨tail, ?_, by simp; omega, fun c h2 => List.mem_cons_of_mem _ (hmem c h2)⟩
      simp only [mix_loop, if_pos hc]
      exact heq
    · rcases htp : try_place rect (d / 2) s d [] nc rng idx 800 with ⟨oc, j⟩
      cases oc with
      | none =>
        obtain ⟨tail, heq, hlen, hmem⟩ := ih nc p j
        refine ⟨tail, ?_, by simp; omega, fun c h2 => List.mem_cons_of_mem _ (hmem c h2)⟩
        simp only [mix_loop, if_neg hc, htp]
        exact heq
      | some c =>
        obtain ⟨tail, heq, hlen, hmem⟩ := ih (nc ++ [c]) (p + 1) j
        refine ⟨c :: tail, ?_, by simp; omega, ?_⟩
        · simp only [mix_loop, if_neg hc, htp]
          rw [heq]
          simp only [Prod.mk.injEq]
          constructor
          · simp
          · simp only [List.length_cons]
            omega
        · intro c2 hc2
          rcases List.mem_cons.1 hc2 with h1 | h1
          · subst h1
            rw [(try_place_some htp).1]
            exact List.mem_cons_self _ _
          · exact List.mem_cons_of_mem _ (hmem c2 h1)

lemma mix_loop_pairwise {rect : Rect} {s : ℚ} {rng : ℕ → ℚ × ℚ} :
    ∀ (ds : List ℚ) (nc : List Circle) (p idx : ℕ),
      nc.Pairwise (sepR s) →
      (mix_loop rect s rng ds nc p idx).1.Pairwise (sepR s) := by
  intro ds
  induction ds with
  | nil =>
    intro nc p idx h
    simpa [mix_loop] using h
  | cons d ds ih =>
    intro nc p idx h
    by_cases hc : rect.w_mm ≤ 2 * (d / 2 + s) ∨ rect.h_mm ≤ 2 * (d / 2 + s)
    · simp only [mix_loop, if_pos hc]
      exact ih nc p idx h
    · rcases htp : try_place rect (d / 2) s d [] nc rng idx 800 with ⟨oc, j⟩
      cases oc with
      | none =>
        simp only [mix_loop, if_neg hc, htp]
        exact ih nc p j h
      | some c =>
        simp only [mix_loop, if_neg hc, htp]
        apply ih
        obtain ⟨hd, -, hnc, -⟩ := try_place_some htp
        rw [List.pairwise_append]
        refine ⟨h, List.pairwise_singleton _ _, ?_⟩
        intro a ha b hb
        rw [List.mem_singleton] at hb
        rw [hb]
        have hf : tooClose c.cx_mm c.cy_mm (c.d_mm / 2) s a = false := by
          rw [hd]
          exact hnc a ha
        exact sepR_symm (sepR_of_tooClose_false hf)

lemma mix_loop_box {rect : Rect} {s : ℚ} {rng : ℕ → ℚ × ℚ}
    (hrng : ∀ n, 0 ≤ (rng n).1 ∧ (rng n).1 ≤ 1 ∧ 0 ≤ (rng n).2 ∧ (rng n).2 ≤ 1) :
    ∀ (ds : List ℚ) (nc : List Circle) (p idx : ℕ),
      (∀ c ∈ nc, centerInBox rect s c) →
      ∀ c ∈ (mix_loop rect s rng ds nc p idx).1, centerInBox rect s c := by
  intro ds
  induction ds with
  | nil =>
    intro nc p idx h
    simpa [mix_loop] using h
  | cons d ds ih =>
    intro nc p idx h
    by_cases hc : rect.w_mm ≤ 2 * (d / 2 + s) ∨ rect.h_mm ≤ 2 * (d / 2 + s)
    · simp only [mix_loop, if_pos hc]
      exact ih nc p idx h
    · rcases htp : try_place rect (d / 2) s d [] nc rng idx 800 with ⟨oc, j⟩
      push_neg at hc
      cases oc with
      | none =>
        simp only [mix_loop, if_neg (not_or.2 ⟨not_le.2 hc.1, not_le.2 hc.2⟩), htp]
        exact ih nc p j h
      | some c =>
        simp only [mix_loop, if_neg (not_or.2 ⟨not_le.2 hc.1, not_le.2 hc.2⟩), htp]
        apply ih
        intro c2 hc2
        rcases List.mem_append.1 hc2 with h1 | h1
        · exact h c2 h1
        · rw [List.mem_singleton] at h1
          subst h1
          refine try_place_some_box hrng ?_ ?_ rfl htp
          · linarith [hc.1]
          · linarith [hc.2]

lemma add_random_circles_ok {rect : Rect} {diam : ℚ} {count : ℕ} {s : ℚ}
    {circles : List Circle} {rng : ℕ → ℚ × ℚ} {out : List Circle} {n : ℕ}
    (h : add_random_circles rect diam count s circles rng = PlaceResult.ok out n) :
    ¬(rect.w_mm ≤ 2 * (diam / 2 + s) ∨ rect.h_mm ≤ 2 * (diam / 2 + s)) ∧
    out = circles ++ (place_loop rect diam s circles rng count [] 0 0).1 ∧
    n = (place_loop rect diam s circles rng count [] 0 0).2 := by
  by_cases hc : rect.w_mm ≤ 2 * (diam / 2 + s) ∨ rect.h_mm ≤ 2 * (diam / 2 + s)
  · rw [add_random_circles, if_pos hc] at h
    cases h
  · rw [add_random_circles, if_neg hc] at h
    injection h with h1 h2
    exact ⟨hc, h1.symm, h2.symm⟩

lemma try_place_accept {rect : Rect} {r s diam : ℚ} {ex nc : List Circle}
    {rng : ℕ → ℚ × ℚ} {idx fuel : ℕ}
    (hacc : (ex.any (tooClose (candX rect r s rng idx) (candY rect r s rng idx) r s)
        || nc.any (tooClose (candX rect r s rng idx) (candY rect r s rng idx) r s)) = false) :
    try_place rect r s diam ex nc rng idx (fuel + 1)
      = (some ⟨candX rect r s rng idx, candY rect r s rng idx, diam⟩, idx + 1) := by
  simp [try_place, hacc]

lemma place_loop_succ {rect : Rect} {diam s : ℚ} {ex : List Circle} {rng : ℕ → ℚ × ℚ}
    {n : ℕ} {nc : List Circle} {p idx : ℕ} :
    place_loop rect diam s ex rng (n + 1) nc p idx =
      match try_place rect (diam / 2) s diam ex nc rng idx 600 with
      | (some c, j) => place_loop rect diam s ex rng n (nc ++ [c]) (p + 1) j
      | (none, _) => (nc, p) := rfl

lemma iter_step (f : ℚ → ℚ) (n : ℕ) (x y z : ℚ) (h1 : f^[n] x = y) (h2 : f y = z) :
    f^[n + 1] x = z := by
  rw [Function.iterate_succ_apply', h1, h2]

lemma place_loop_one {rect : Rect} {diam s : ℚ} {ex : List Circle} {rng : ℕ → ℚ × ℚ}
    {nc : List Circle} {p idx : ℕ} :
    place_loop rect diam s ex rng 1 nc p idx =
      match try_place rect (diam / 2) s diam ex nc rng idx 600 with
      | (some c, _) => (nc ++ [c], p + 1)
      | (none, _) => (nc, p) := by
  rcases h : try_place rect (diam / 2) s diam ex nc rng idx 600 with ⟨oc, j⟩
  rw [show (1:ℕ) = 0 + 1 from rfl, place_loop_succ, h]
  cases oc
  · rfl
  · rfl

lemma zoom_in_le_ten (z : ℚ) : zoom_in z ≤ 10 := by
  have h : (10.0 : ℚ) = 10 := by norm_num
  exact h ▸ min_le_right _ _

lemma zoom_out_ge (z : ℚ) : 0.05 ≤ zoom_out z := le_max_right _ _

lemma zoom_in_bounds {z : ℚ} (h1 : 0.05 ≤ z) (h2 : z ≤ 10) :
    0.05 ≤ zoom_in z ∧ zoom_in z ≤ 10 := by
  refine ⟨le_min (by rw [show (1.2:ℚ) = 6/5 by norm_num]; nlinarith) (by norm_num), zoom_in_le_ten z⟩

lemma zoom_out_bounds {z : ℚ} (h1 : 0.05 ≤ z) (h2 : z ≤ 10) :
    0.05 ≤ zoom_out z ∧ zoom_out z ≤ 10 := by
  refine ⟨zoom_out_ge z, max_le ?_ (by norm_num)⟩
  rw [show (1.2:ℚ) = 6/5 by norm_num, div_le_iff (by norm_num)]
  nlinarith

lemma zoom_fold_bounds :
    ∀ (ops : List (ℚ → ℚ)),
      (∀ f ∈ ops, f = zoom_in ∨ f = zoom_out ∨ f = zoom_reset) →
      ∀ z : ℚ, 0.05 ≤ z → z ≤ 10 →
        0.05 ≤ ops.foldl (fun a f => f a) z ∧ ops.foldl (fun a f => f a) z ≤ 10 := by
  intro ops
  induction ops with
  | nil => intro _ z h1 h2; exact ⟨h1, h2⟩
  | cons f fs ih =>
    intro hops z h1 h2
    have hstep : 0.05 ≤ f z ∧ f z ≤ 10 := by
      rcases hops f (List.mem_cons_self _ _) with h | h | h
      · rw [h]; exact zoom_in_bounds h1 h2
      · rw [h]; exact zoom_out_bounds h1 h2
      · rw [h]; unfold zoom_reset; norm_num
    exact ih (fun g hg => hops g (List.mem_cons_of_mem _ hg)) (f z) hstep.1 hstep.2

/-- C2: Feasibility gate: for every rectangle, diameter > 0, count > 0 and
minSpacing ≥ 0, if `w ≤ 2*(diam/2 + minSpacing)` or `h ≤ 2*(diam/2 + minSpacing)`
then `add_random_circles` fails with the infeasible result before any sampling:
zero circles placed, the collection unchanged, and no random candidate drawn
(the result does not depend on the random source at all). -/
theorem feasibility_gate_c2 (rect : Rect) (diam : ℚ) (count : ℕ) (s : ℚ)
    (circles : List Circle) (rng : ℕ → ℚ × ℚ)
    (hd : 0 < diam) (hcnt : 0 < count) (hs : 0 ≤ s)
    (hinf : rect.w_mm ≤ 2 * (diam / 2 + s) ∨ rect.h_mm ≤ 2 * (diam / 2 + s)) :
    add_random_circles rect diam count s circles rng = PlaceResult.infeasible ∧
    add_random_circles_state rect diam count s circles rng = (circles, 0) ∧
    ∀ rng2 : ℕ → ℚ × ℚ,
      add_random_circles rect diam count s circles rng
        = add_random_circles rect diam count s circles rng2 := by
  have h1 : ∀ rng2 : ℕ → ℚ × ℚ,
      add_random_circles rect diam count s circles rng2 = PlaceResult.infeasible := by
    intro rng2
    rw [add_random_circles, if_pos hinf]
  refine ⟨h1 rng, ?_, fun rng2 => (h1 rng).trans (h1 rng2).symm⟩
  unfold add_random_circles_state
  rw [h1 rng]

/-- C2 witness: the default 800×2000 rectangle cannot hold a Ø3000 circle. -/
theorem feasibility_gate_c2_witness :
    ((0:ℚ) < 3000 ∧ 0 < 1 ∧ (0:ℚ) ≤ 0 ∧
      (rect0.w_mm ≤ 2 * ((3000:ℚ) / 2 + 0) ∨ rect0.h_mm ≤ 2 * ((3000:ℚ) / 2 + 0))) ∧
    (add_random_circles rect0 3000 1 0 [] rngHalf = PlaceResult.infeasible ∧
      add_random_circles_state rect0 3000 1 0 [] rngHalf = ([], 0) ∧
      ∀ rng2 : ℕ → ℚ × ℚ,
        add_random_circles rect0 3000 1 0 [] rngHalf
          = add_random_circles rect0 3000 1 0 [] rng2) :=
  ⟨⟨by norm_num, by norm_num, le_refl 0, Or.inl (by norm_num [rect0])⟩,
    feasibility_gate_c2 rect0 3000 1 0 [] rngHalf (by norm_num) (by norm_num)
      (le_refl 0) (Or.inl (by norm_num [rect0]))⟩

/-- C8: `add_random_circles` never removes or alters existing circles: a
successful (non-aborted) call returns the prior collection as an unchanged
prefix, followed only by the newly placed circles, with
`satisfiedCount = number of new circles ≤ count`. -/
theorem frame_existing_c8 (rect : Rect) (diam : ℚ) (count : ℕ) (s : ℚ)
    (circles : List Circle) (rng : ℕ → ℚ × ℚ) (out : List Circle) (n : ℕ)
    (h : add_random_circles rect diam count s circles rng = PlaceResult.ok out n) :
    ∃ newC : List Circle, out = circles ++ newC ∧ n = newC.length ∧ n ≤ count := by
  obtain ⟨-, hout, hn⟩ := add_random_circles_ok h
  obtain ⟨tail, heq, hlen, -⟩ := @place_loop_spec rect diam s circles rng count [] 0 0
  refine ⟨tail, ?_, ?_, ?_⟩
  · rw [hout, heq]
    simp
  · rw [hn, heq]
    simp
  · rw [hn, heq]
    simpa using hlen

/-- C8 witness: one circle placed into the empty default collection. -/
theorem frame_existing_c8_witness :
    add_random_circles rect0 100 1 20 [] rngHalf
      = PlaceResult.ok [⟨410, 1010, 100⟩] 1 ∧
    ∃ newC : List Circle,
      [(⟨410, 1010, 100⟩ : Circle)] = [] ++ newC ∧ 1 = newC.length ∧ 1 ≤ 1 := by
  have hok : add_random_circles rect0 100 1 20 [] rngHalf
      = PlaceResult.ok [⟨410, 1010, 100⟩] 1 := by
    have htp : try_place rect0 ((100:ℚ)/2) 20 100 [] [] rngHalf 0 600
        = (some ⟨410, 1010, 100⟩, 1) := by
      have h := @try_place_accept rect0 ((100:ℚ)/2) 20 100 [] [] rngHalf 0 599 rfl
      rw [show candX rect0 ((100:ℚ)/2) 20 rngHalf 0 = 410 from by
            norm_num [candX, uniform, rngHalf, rect0],
          show candY rect0 ((100:ℚ)/2) 20 rngHalf 0 = 1010 from by
            norm_num [candY, uniform, rngHalf, rect0]] at h
      exact h
    rw [add_random_circles, if_neg (by norm_num [rect0])]
    rw [place_loop_one, htp]
    rfl
  exact ⟨hok, frame_existing_c8 rect0 100 1 20 [] rngHalf _ _ hok⟩

/-- C10: repacking an empty collection is a no-op: `mix_circles` returns
immediately with the collection still empty, a zero placed count, no warning
popup, and without consulting the random source. -/
theorem mix_empty_noop_c10 (rect : Rect) (s : ℚ) (rng rng2 : ℕ → ℚ × ℚ) :
    mix_circles rect s [] rng = ([], 0, false) ∧
    mix_circles rect s [] rng = mix_circles rect s [] rng2 := by
  constructor <;> simp [mix_circles]

/-- C6: the DXF export transform flips every Y as `canvas_h_mm - y` where
`canvas_h_mm` is the surface height divided by the effective scale (falling
back to the raw pixel height on a degenerate scale), emits the rectangle
corners top-left, top-right, bottom-right, bottom-left as a closed 4-point
polyline, and emits each circle with centre `(cx, canvas_h_mm - cy)` and
radius `diameter/2`; the spec's concrete scenario follows. -/
theorem export_y_flip_c6 :
    (∀ (rect : Rect) (circles : List Circle) (H : ℚ),
        save_dxf_geometry rect circles H =
          ⟨[(rect.x0_mm, H - rect.y0_mm), (rect.x0_mm + rect.w_mm, H - rect.y0_mm),
            (rect.x0_mm + rect.w_mm, H - (rect.y0_mm + rect.h_mm)),
            (rect.x0_mm, H - (rect.y0_mm + rect.h_mm))], true,
            circles.map (fun c => ((c.cx_mm, H - c.cy_mm), c.d_mm / 2))⟩) ∧
    (∀ ch eff : ℚ, eff ≠ 0 → canvas_h_mm ch eff = ch / eff) ∧
    (∀ ch : ℚ, canvas_h_mm ch 0 = ch) ∧
    (save_dxf_geometry rect0 [⟨100, 100, 100⟩] 2020).circleSpecs
      = [((100, 1920), 50)] ∧
    (save_dxf_geometry rect0 [⟨100, 100, 100⟩] 2020).polyline.head?
      = some (10, 2010) := by
  refine ⟨fun rect circles H => rfl, ?_, ?_, ?_, ?_⟩
  · intro ch eff h
    rw [canvas_h_mm, if_neg h]
  · intro ch
    rw [canvas_h_mm, if_pos rfl]
  · norm_num [save_dxf_geometry, rect0]
  · norm_num [save_dxf_geometry, rect_points_model, rect0]

/-- C6 witness: a non-degenerate scale instantiating the division branch. -/
theorem export_y_flip_c6_witness :
    ((3:ℚ)/10 ≠ 0) ∧ canvas_h_mm 648 (3/10) = 648 / (3/10) :=
  ⟨by norm_num, export_y_flip_c6.2.1 648 (3/10) (by norm_num)⟩

/-- C1 counterexample: the claim as stated also asserts the spacing for the
pre-existing pairs of a `placeNew` call; placing one circle into a collection
that already contains two coincident circles succeeds and returns a
collection in which that old pair still violates the spacing. -/
theorem no_overlap_c1_counterexample :
    add_random_circles rect0 100 1 0 [⟨100, 100, 10⟩, ⟨100, 100, 10⟩] rngHalf
      = PlaceResult.ok [⟨100, 100, 10⟩, ⟨100, 100, 10⟩, ⟨410, 1010, 100⟩] 1 ∧
    ¬ List.Pairwise (sepR 0)
        [(⟨100, 100, 10⟩ : Circle), ⟨100, 100, 10⟩, ⟨410, 1010, 100⟩] := by
  constructor
  · have htp : try_place rect0 ((100:ℚ)/2) 0 100 [⟨100, 100, 10⟩, ⟨100, 100, 10⟩] []
        rngHalf 0 600 = (some ⟨410, 1010, 100⟩, 1) := by
      have hacc : (([⟨100, 100, 10⟩, ⟨100, 100, 10⟩] : List Circle).any
            (tooClose (candX rect0 ((100:ℚ)/2) 0 rngHalf 0)
              (candY rect0 ((100:ℚ)/2) 0 rngHalf 0) ((100:ℚ)/2) 0)
          || ([] : List Circle).any
            (tooClose (candX rect0 ((100:ℚ)/2) 0 rngHalf 0)
              (candY rect0 ((100:ℚ)/2) 0 rngHalf 0) ((100:ℚ)/2) 0)) = false := by
        norm_num [candX, candY, uniform, rngHalf, rect0, tooClose]
      have h := @try_place_accept rect0 ((100:ℚ)/2) 0 100
        [⟨100, 100, 10⟩, ⟨100, 100, 10⟩] [] rngHalf 0 599 hacc
      rw [show candX rect0 ((100:ℚ)/2) 0 rngHalf 0 = 410 from by
            norm_num [candX, uniform, rngHalf, rect0],
          show candY rect0 ((100:ℚ)/2) 0 rngHalf 0 = 1010 from by
            norm_num [candY, uniform, rngHalf, rect0]] at h
      exact h
    rw [add_random_circles, if_neg (by norm_num [rect0])]
    rw [place_loop_one, htp]
    rfl
  · intro hp
    have h := (List.pairwise_cons.1 hp).1 ⟨100, 100, 10⟩ (by simp)
    unfold sepR circleDist2 at h
    norm_num [Real.sqrt_zero] at h

/-- C1 (amended): the placement operations preserve the no-overlap
invariant: provided the pre-existing pairs themselves satisfy the spacing,
every pair in the collection returned by `add_random_circles` keeps
Euclidean centre distance at least the sum of the radii plus the minimum
spacing; the collection returned by `mix_circles` satisfies the property
unconditionally — regardless of the input positions — since its result
replaces the old positions entirely. -/
theorem no_overlap_c1 (rect : Rect) (diam : ℚ) (count : ℕ) (s : ℚ)
    (circles : List Circle) (rng : ℕ → ℚ × ℚ) :
    (circles.Pairwise (sepR s) →
      ∀ (out : List Circle) (n : ℕ),
        add_random_circles rect diam count s circles rng = PlaceResult.ok out n →
        out.Pairwise (sepR s)) ∧
    (mix_circles rect s circles rng).1.Pairwise (sepR s) := by
  constructor
  · intro hpre out n h
    obtain ⟨-, hout, -⟩ := add_random_circles_ok h
    rw [hout]
    exact @place_loop_pairwise rect diam s circles rng count [] 0 0 (by simpa using hpre)
  · by_cases hemp : circles.isEmpty
    · rw [mix_circles, if_pos hemp]
      rw [List.isEmpty_iff] at hemp
      rw [hemp]
      exact List.Pairwise.nil
    · rw [mix_circles, if_neg hemp]
      exact @mix_loop_pairwise rect s rng (sortDiameters circles) [] 0 0 List.Pairwise.nil

/-- C1 witness: a two-circle collection at distance 100 satisfies the
20 mm spacing precondition non-vacuously for the `placeNew` half, and the
repack half is instantiated at a collection of two coincident circles — a
collection violating the spacing — showing it needs no precondition. -/
theorem no_overlap_c1_witness :
    List.Pairwise (sepR 20) [(⟨100, 100, 10⟩ : Circle), ⟨200, 100, 10⟩] ∧
    (∀ (out : List Circle) (n : ℕ),
        add_random_circles rect0 100 5 20 [⟨100, 100, 10⟩, ⟨200, 100, 10⟩] rngHalf
          = PlaceResult.ok out n →
        out.Pairwise (sepR 20)) ∧
    (mix_circles rect0 20 [(⟨100, 100, 10⟩ : Circle), ⟨100, 100, 10⟩]
        rngHalf).1.Pairwise (sepR 20) := by
  have hsep : sepR 20 (⟨100, 100, 10⟩ : Circle) ⟨200, 100, 10⟩ := by
    unfold sepR circleDist2
    refine Real.le_sqrt_of_sq_le ?_
    norm_num
  have hpair : List.Pairwise (sepR 20) [(⟨100, 100, 10⟩ : Circle), ⟨200, 100, 10⟩] := by
    refine List.pairwise_cons.2 ⟨?_, List.pairwise_singleton _ _⟩
    intro b hb
    rw [List.mem_singleton.1 hb]
    exact hsep
  exact ⟨hpair,
    (no_overlap_c1 rect0 100 5 20 [⟨100, 100, 10⟩, ⟨200, 100, 10⟩] rngHalf).1 hpair,
    (no_overlap_c1 rect0 100 5 20 [⟨100, 100, 10⟩, ⟨100, 100, 10⟩] rngHalf).2⟩

/-- C3: every circle placed by `add_random_circles` or `mix_circles` has its
centre inside the closed box
`[x0+r+s, x0+w-r-s] × [y0+r+s, y0+h-r-s]` with `r` that circle's radius,
for any random source whose unit samples lie in `[0, 1]` (as
`random.uniform` guarantees). -/
theorem edge_clearance_c3 (rect : Rect) (diam : ℚ) (count : ℕ) (s : ℚ)
    (circles : List Circle) (rng : ℕ → ℚ × ℚ)
    (hrng : ∀ n, 0 ≤ (rng n).1 ∧ (rng n).1 ≤ 1 ∧ 0 ≤ (rng n).2 ∧ (rng n).2 ≤ 1) :
    (∀ (out : List Circle) (n : ℕ),
        add_random_circles rect diam count s circles rng = PlaceResult.ok out n →
        ∀ c ∈ out.drop circles.length, centerInBox rect s c) ∧
    (∀ c ∈ (mix_circles rect s circles rng).1, centerInBox rect s c) := by
  constructor
  · intro out n h c hc
    obtain ⟨hfeas, hout, -⟩ := add_random_circles_ok h
    push_neg at hfeas
    rw [hout, List.drop_left] at hc
    refine place_loop_box hrng ?_ ?_ count [] 0 0 (by simp) c hc
    · linarith [hfeas.1]
    · linarith [hfeas.2]
  · by_cases hemp : circles.isEmpty
    · rw [mix_circles, if_pos hemp]
      rw [List.isEmpty_iff] at hemp
      rw [hemp]
      intro c hc
      cases hc
    · rw [mix_circles, if_neg hemp]
      exact mix_loop_box hrng (sortDiameters circles) [] 0 0 (by simp)

/-- C3 witness: the constant half-sample source is a unit-range source. -/
theorem edge_clearance_c3_witness :
    (∀ n, 0 ≤ (rngHalf n).1 ∧ (rngHalf n).1 ≤ 1 ∧
      0 ≤ (rngHalf n).2 ∧ (rngHalf n).2 ≤ 1) ∧
    ((∀ (out : List Circle) (n : ℕ),
        add_random_circles rect0 100 5 20 [] rngHalf = PlaceResult.ok out n →
        ∀ c ∈ out.drop ([] : List Circle).length, centerInBox rect0 20 c) ∧
      (∀ c ∈ (mix_circles rect0 20 [] rngHalf).1, centerInBox rect0 20 c)) :=
  ⟨fun n => ⟨by norm_num [rngHalf], by norm_num [rngHalf],
      by norm_num [rngHalf], by norm_num [rngHalf]⟩,
    edge_clearance_c3 rect0 100 5 20 [] rngHalf
      (fun n => ⟨by norm_num [rngHalf], by norm_num [rngHalf],
        by norm_num [rngHalf], by norm_num [rngHalf]⟩)⟩

/-- C4: early-exit policy of `add_random_circles`: each slot consumes at
most the fixed 600-draw retry budget; the first accepted candidate for a
slot is returned immediately; and when one slot exhausts its budget without
an accepted candidate, no further slot is attempted — the loop returns
exactly the circles placed so far together with their count. -/
theorem early_exit_c4 (rect : Rect) (diam s : ℚ) (ex : List Circle)
    (rng : ℕ → ℚ × ℚ) :
    (∀ (nc : List Circle) (idx : ℕ),
        (try_place rect (diam / 2) s diam ex nc rng idx 600).2 ≤ idx + 600) ∧
    (∀ (nc : List Circle) (idx fuel : ℕ),
        (ex.any (tooClose (candX rect (diam / 2) s rng idx)
            (candY rect (diam / 2) s rng idx) (diam / 2) s)
          || nc.any (tooClose (candX rect (diam / 2) s rng idx)
            (candY rect (diam / 2) s rng idx) (diam / 2) s)) = false →
        try_place rect (diam / 2) s diam ex nc rng idx (fuel + 1)
          = (some ⟨candX rect (diam / 2) s rng idx,
              candY rect (diam / 2) s rng idx, diam⟩, idx + 1)) ∧
    (∀ (n : ℕ) (nc : List Circle) (p idx j : ℕ),
        try_place rect (diam / 2) s diam ex nc rng idx 600 = (none, j) →
        place_loop rect diam s ex rng (n + 1) nc p idx = (nc, p)) := by
  refine ⟨?_, ?_, ?_⟩
  · intro nc idx
    exact try_place_snd_le 600 idx
  · intro nc idx fuel hacc
    exact try_place_accept hacc
  · intro n nc p idx j h
    rw [place_loop_succ, h]

/-- C4 witness: with a collection dominated by one huge circle every draw is
rejected, so the first slot exhausts its budget and the loop stops with
nothing placed; with no obstacles the first draw is accepted at once. -/
theorem early_exit_c4_witness :
    try_place rect0 ((100:ℚ) / 2) 20 100 [⟨410, 1010, 100000⟩] [] rngHalf 0 600
      = (none, 600) ∧
    place_loop rect0 100 20 [⟨410, 1010, 100000⟩] rngHalf 1 [] 0 0 = ([], 0) ∧
    (try_place rect0 ((100:ℚ) / 2) 20 100 [] [] rngHalf 0 600).2 ≤ 0 + 600 ∧
    try_place rect0 ((100:ℚ) / 2) 20 100 [] [] rngHalf 0 (0 + 1)
      = (some ⟨candX rect0 ((100:ℚ) / 2) 20 rngHalf 0,
          candY rect0 ((100:ℚ) / 2) 20 rngHalf 0, 100⟩, 0 + 1) := by
  have hnone : try_place rect0 ((100:ℚ) / 2) 20 100 [⟨410, 1010, 100000⟩] []
      rngHalf 0 600 = (none, 600) :=
    try_place_none_of_reject
      (fun k => by norm_num [candX, candY, uniform, rngHalf, rect0, tooClose]) 600 0
  refine ⟨hnone, ?_, ?_, ?_⟩
  · exact (early_exit_c4 rect0 100 20 [⟨410, 1010, 100000⟩] rngHalf).2.2 0 [] 0 0 600 hnone
  · exact (early_exit_c4 rect0 100 20 [] rngHalf).1 [] 0
  · exact (early_exit_c4 rect0 100 20 [] rngHalf).2.1 [] 0 0 rfl

/-- C5: `mix_circles` preserves the multiset of diameters up to dropped
circles: the placed count never exceeds the original circle count, every
output diameter existed in the input, the diameters are attempted in
descending order, and a diameter that is infeasible or exhausts its
800-attempt budget is skipped while the remaining diameters are still
attempted (the result replaces the collection wholesale). -/
theorem repack_diameters_c5 (rect : Rect) (s : ℚ) (circles : List Circle)
    (rng : ℕ → ℚ × ℚ) :
    (mix_circles rect s circles rng).2.1 ≤ circles.length ∧
    (∀ c ∈ (mix_circles rect s circles rng).1, c.d_mm ∈ circles.map Circle.d_mm) ∧
    List.Sorted (· ≥ ·) (sortDiameters circles) ∧
    (∀ (d : ℚ) (ds : List ℚ) (nc : List Circle) (p idx : ℕ),
        (rect.w_mm ≤ 2 * (d / 2 + s) ∨ rect.h_mm ≤ 2 * (d / 2 + s)) →
        mix_loop rect s rng (d :: ds) nc p idx = mix_loop rect s rng ds nc p idx) ∧
    (∀ (d : ℚ) (ds : List ℚ) (nc : List Circle) (p idx j : ℕ),
        ¬(rect.w_mm ≤ 2 * (d / 2 + s) ∨ rect.h_mm ≤ 2 * (d / 2 + s)) →
        try_place rect (d / 2) s d [] nc rng idx 800 = (none, j) →
        mix_loop rect s rng (d :: ds) nc p idx = mix_loop rect s rng ds nc p j) := by
  have hsort : List.Sorted (· ≥ ·) (sortDiameters circles) :=
    List.sorted_insertionSort _ _
  have hmemiff : ∀ q : ℚ, q ∈ sortDiameters circles ↔ q ∈ circles.map Circle.d_mm :=
    fun q => (List.perm_insertionSort _ _).mem_iff
  refine ⟨?_, ?_, hsort, ?_, ?_⟩
  · by_cases hemp : circles.isEmpty
    · rw [mix_circles, if_pos hemp]
      exact Nat.zero_le _
    · rw [mix_circles, if_neg hemp]
      obtain ⟨tail, heq, hlen, -⟩ := @mix_loop_spec rect s rng (sortDiameters circles) [] 0 0
      have hslen : (sortDiameters circles).length = circles.length := by
        unfold sortDiameters
        rw [(List.perm_insertionSort _ _).length_eq, List.length_map]
      simp only [heq]
      simp only [List.nil_append, List.length_nil, Nat.zero_add]
      omega
  · by_cases hemp : circles.isEmpty
    · rw [mix_circles, if_pos hemp]
      rw [List.isEmpty_iff] at hemp
      rw [hemp]
      intro c hc
      cases hc
    · rw [mix_circles, if_neg hemp]
      obtain ⟨tail, heq, -, hmem⟩ := @mix_loop_spec rect s rng (sortDiameters circles) [] 0 0
      intro c hc
      simp only [heq, List.nil_append] at hc
      exact (hmemiff c.d_mm).1 (hmem c hc)
  · intro d ds nc p idx hinf
    simp only [mix_loop, if_pos hinf]
  · intro d ds nc p idx j hfeas htp
    simp only [mix_loop, if_neg hfeas, htp]

/-- C5 witness: an infeasible diameter is skipped, and a diameter whose
800 draws are all rejected by an oversized already-placed circle is skipped
with the random stream advanced by the full budget. -/
theorem repack_diameters_c5_witness :
    (mix_circles rect0 20 [⟨100, 100, 100⟩] rngHalf).2.1 ≤ 1 ∧
    (rect0.w_mm ≤ 2 * ((3000:ℚ) / 2 + 20) ∨ rect0.h_mm ≤ 2 * ((3000:ℚ) / 2 + 20)) ∧
    mix_loop rect0 20 rngHalf [3000] [] 0 0 = mix_loop rect0 20 rngHalf [] [] 0 0 ∧
    ¬(rect0.w_mm ≤ 2 * ((100:ℚ) / 2 + 20) ∨ rect0.h_mm ≤ 2 * ((100:ℚ) / 2 + 20)) ∧
    try_place rect0 ((100:ℚ) / 2) 20 100 [] [⟨410, 1010, 100000⟩] rngHalf 0 800
      = (none, 800) ∧
    mix_loop rect0 20 rngHalf [100] [⟨410, 1010, 100000⟩] 0 0
      = mix_loop rect0 20 rngHalf [] [⟨410, 1010, 100000⟩] 0 800 := by
  have hinf : rect0.w_mm ≤ 2 * ((3000:ℚ) / 2 + 20) ∨ rect0.h_mm ≤ 2 * ((3000:ℚ) / 2 + 20) :=
    Or.inl (by norm_num [rect0])
  have hfeas : ¬(rect0.w_mm ≤ 2 * ((100:ℚ) / 2 + 20) ∨ rect0.h_mm ≤ 2 * ((100:ℚ) / 2 + 20)) := by
    norm_num [rect0]
  have hnone : try_place rect0 ((100:ℚ) / 2) 20 100 [] [⟨410, 1010, 100000⟩] rngHalf 0 800
      = (none, 800) :=
    try_place_none_of_reject
      (fun k => by norm_num [candX, candY, uniform, rngHalf, rect0, tooClose]) 800 0
  refine ⟨by simpa using (repack_diameters_c5 rect0 20 [⟨100, 100, 100⟩] rngHalf).1,
    hinf,
    (repack_diameters_c5 rect0 20 [⟨100, 100, 100⟩] rngHalf).2.2.2.1 3000 [] [] 0 0 hinf,
    hfeas,
    hnone,
    (repack_diameters_c5 rect0 20 [⟨100, 100, 100⟩] rngHalf).2.2.2.2 100 []
      [⟨410, 1010, 100000⟩] 0 0 800 hfeas hnone⟩

/-- C7 counterexample: the claim expresses the Auto-mode base scale as
`min(usableW/width, usableH/height)` for every rectangle with positive
extent, but the code divides by the extents clamped below at `1e-6` mm, so
for a rectangle of width and height `1/2000000` mm the code's scale
(600000000) differs from the claimed formula's value (1200000000). -/
theorem auto_fit_c7_counterexample :
    (compute_px_per_mm_and_offset ⟨0, 0, 1/2000000, 1/2000000⟩ 848 648 true 3 1).1
      = 600000000 ∧
    (if min ((max 1 (848 - 2 * CANVAS_MARGIN_PX)) / ((1:ℚ)/2000000))
          ((max 1 (648 - 2 * CANVAS_MARGIN_PX)) / ((1:ℚ)/2000000)) ≤ 0 then 1
      else min ((max 1 (848 - 2 * CANVAS_MARGIN_PX)) / ((1:ℚ)/2000000))
          ((max 1 (648 - 2 * CANVAS_MARGIN_PX)) / ((1:ℚ)/2000000))) * 1
      = 1200000000 ∧
    (600000000 : ℚ) ≠ 1200000000 := by
  refine ⟨?_, ?_, by norm_num⟩
  · norm_num [compute_px_per_mm_and_offset, CANVAS_MARGIN_PX, min_def, max_def]
  · norm_num [CANVAS_MARGIN_PX, min_def, max_def]

/-- C7 (amended): for rectangles whose width and height are at least the
`1e-6` mm clamp of the code, the Auto-mode transform computes the usable
extents `surface - 2*margin` floored at 1, the base scale
`min(usableW/width, usableH/height)` with a non-positive base replaced by 1,
the effective scale `base * zoom`, and the offsets
`margin - x0*scale` and `margin - y0*scale`; the spec's 800×2000-in-848×648
scenario gives base scale 0.3 before zoom. -/
theorem auto_fit_c7_amended (rect : Rect) (canvas_w canvas_h manual_px zoom : ℚ)
    (hw : (0.000001 : ℚ) ≤ rect.w_mm) (hh : (0.000001 : ℚ) ≤ rect.h_mm) :
    (compute_px_per_mm_and_offset rect canvas_w canvas_h true manual_px zoom).1 =
      (if min ((max 1 (canvas_w - 2 * CANVAS_MARGIN_PX)) / rect.w_mm)
            ((max 1 (canvas_h - 2 * CANVAS_MARGIN_PX)) / rect.h_mm) ≤ 0 then 1
        else min ((max 1 (canvas_w - 2 * CANVAS_MARGIN_PX)) / rect.w_mm)
            ((max 1 (canvas_h - 2 * CANVAS_MARGIN_PX)) / rect.h_mm)) * zoom ∧
    (compute_px_per_mm_and_offset rect canvas_w canvas_h true manual_px zoom).2.1 =
      CANVAS_MARGIN_PX - rect.x0_mm *
        (compute_px_per_mm_and_offset rect canvas_w canvas_h true manual_px zoom).1 ∧
    (compute_px_per_mm_and_offset rect canvas_w canvas_h true manual_px zoom).2.2.1 =
      CANVAS_MARGIN_PX - rect.y0_mm *
        (compute_px_per_mm_and_offset rect canvas_w canvas_h true manual_px zoom).1 ∧
    (compute_px_per_mm_and_offset rect0 848 648 true 3 1).1 = 0.3 := by
  have hw2 : max (rect.x0_mm + rect.w_mm - rect.x0_mm) 0.000001 = rect.w_mm := by
    rw [add_sub_cancel_left]
    exact max_eq_left hw
  have hh2 : max (rect.y0_mm + rect.h_mm - rect.y0_mm) 0.000001 = rect.h_mm := by
    rw [add_sub_cancel_left]
    exact max_eq_left hh
  refine ⟨?_, ?_, ?_, ?_⟩
  · simp only [compute_px_per_mm_and_offset, if_true, hw2, hh2]
  · simp only [compute_px_per_mm_and_offset, if_true]
  · simp only [compute_px_per_mm_and_offset, if_true]
  · norm_num [compute_px_per_mm_and_offset, CANVAS_MARGIN_PX, rect0, min_def, max_def]

/-- C7 witness: the default rectangle satisfies the clamp threshold. -/
theorem auto_fit_c7_witness :
    ((0.000001 : ℚ) ≤ rect0.w_mm ∧ (0.000001 : ℚ) ≤ rect0.h_mm) ∧
    (compute_px_per_mm_and_offset rect0 848 648 true 3 1).1 = 0.3 :=
  ⟨⟨by norm_num [rect0], by norm_num [rect0]⟩,
    (auto_fit_c7_amended rect0 848 648 3 1 (by norm_num [rect0])
      (by norm_num [rect0])).2.2.2⟩

/-- C9: `zoom_in` multiplies the zoom by 1.2 and `zoom_out` divides it by
1.2, each clamping the result to `[0.05, 10]` on the zoom state's domain;
`zoom_reset` restores 1; the interval `[0.05, 10]` is closed under any
sequence of the three operations; repeated `zoom_in` from 1 saturates at
exactly 10 (after 13 steps) without ever exceeding it, and repeated
`zoom_out` saturates at exactly 0.05 (after 17 steps) without going below. -/
theorem zoom_clamp_c9 :
    (∀ z : ℚ, 0.05 ≤ z → z ≤ 10 →
        zoom_in z = min (max (z * 1.2) 0.05) 10 ∧
        zoom_out z = min (max (z / 1.2) 0.05) 10 ∧
        0.05 ≤ zoom_in z ∧ zoom_in z ≤ 10 ∧ 0.05 ≤ zoom_out z ∧ zoom_out z ≤ 10) ∧
    (∀ z : ℚ, zoom_reset z = 1) ∧
    (∀ (ops : List (ℚ → ℚ)),
        (∀ f ∈ ops, f = zoom_in ∨ f = zoom_out ∨ f = zoom_reset) →
        ∀ z : ℚ, 0.05 ≤ z → z ≤ 10 →
          0.05 ≤ ops.foldl (fun a f => f a) z ∧ ops.foldl (fun a f => f a) z ≤ 10) ∧
    zoom_in^[13] 1 = 10 ∧ (∀ m : ℕ, zoom_in^[m] 1 ≤ 10) ∧
    zoom_out^[17] 1 = 0.05 ∧ (∀ m : ℕ, 0.05 ≤ zoom_out^[m] 1) := by
  refine ⟨?_, ?_, zoom_fold_bounds, ?_, ?_, ?_, ?_⟩
  · intro z h1 h2
    refine ⟨?_, ?_, (zoom_in_bounds h1 h2).1, (zoom_in_bounds h1 h2).2,
      (zoom_out_bounds h1 h2).1, (zoom_out_bounds h1 h2).2⟩
    · have e1 : max (z * 1.2) 0.05 = z * 1.2 := max_eq_left (by
        rw [show (1.2:ℚ) = 6/5 by norm_num, show (0.05:ℚ) = 1/20 by norm_num]
        linarith)
      rw [e1, zoom_in]
      norm_num
    · have e2 : min (max (z / 1.2) 0.05) 10 = max (z / 1.2) 0.05 := min_eq_left (by
        refine max_le ?_ (by norm_num)
        rw [show (1.2:ℚ) = 6/5 by norm_num, div_le_iff₀ (by norm_num)]
        linarith)
      rw [e2, zoom_out]
  · intro z
    unfold zoom_reset
    norm_num
  · have s0 : zoom_in^[0] (1:ℚ) = 1 := rfl
    have s1 : zoom_in^[1] (1:ℚ) = (6/5)^1 :=
      iter_step zoom_in 0 1 (1) ((6/5)^1) s0 (by norm_num [zoom_in, min_def])
    have s2 : zoom_in^[2] (1:ℚ) = (6/5)^2 :=
      iter_step zoom_in 1 1 ((6/5)^1) ((6/5)^2) s1 (by norm_num [zoom_in, min_def])
    have s3 : zoom_in^[3] (1:ℚ) = (6/5)^3 :=
      iter_step zoom_in 2 1 ((6/5)^2) ((6/5)^3) s2 (by norm_num [zoom_in, min_def])
    have s4 : zoom_in^[4] (1:ℚ) = (6/5)^4 :=
      iter_step zoom_in 3 1 ((6/5)^3) ((6/5)^4) s3 (by norm_num [zoom_in, min_def])
    have s5 : zoom_in^[5] (1:ℚ) = (6/5)^5 :=
      iter_step zoom_in 4 1 ((6/5)^4) ((6/5)^5) s4 (by norm_num [zoom_in, min_def])
    have s6 : zoom_in^[6] (1:ℚ) = (6/5)^6 :=
      iter_step zoom_in 5 1 ((6/5)^5) ((6/5)^6) s5 (by norm_num [zoom_in, min_def])
    have s7 : zoom_in^[7] (1:ℚ) = (6/5)^7 :=
      iter_step zoom_in 6 1 ((6/5)^6) ((6/5)^7) s6 (by norm_num [zoom_in, min_def])
    have s8 : zoom_in^[8] (1:ℚ) = (6/5)^8 :=
      iter_step zoom_in 7 1 ((6/5)^7) ((6/5)^8) s7 (by norm_num [zoom_in, min_def])
    have s9 : zoom_in^[9] (1:ℚ) = (6/5)^9 :=
      iter_step zoom_in 8 1 ((6/5)^8) ((6/5)^9) s8 (by norm_num [zoom_in, min_def])
    have s10 : zoom_in^[10] (1:ℚ) = (6/5)^10 :=
      iter_step zoom_in 9 1 ((6/5)^9) ((6/5)^10) s9 (by norm_num [zoom_in, min_def])
    have s11 : zoom_in^[11] (1:ℚ) = (6/5)^11 :=
      iter_step zoom_in 10 1 ((6/5)^10) ((6/5)^11) s10 (by norm_num [zoom_in, min_def])
    have s12 : zoom_in^[12] (1:ℚ) = (6/5)^12 :=
      iter_step zoom_in 11 1 ((6/5)^11) ((6/5)^12) s11 (by norm_num [zoom_in, min_def])
    have s13 : zoom_in^[13] (1:ℚ) = 10 :=
      iter_step zoom_in 12 1 ((6/5)^12) (10) s12 (by norm_num [zoom_in, min_def])
    exact s13
  · intro m
    induction m with
    | zero => norm_num
    | succ k ihk =>
      rw [Function.iterate_succ_apply']
      exact zoom_in_le_ten _
  · have t0 : zoom_out^[0] (1:ℚ) = 1 := rfl
    have t1 : zoom_out^[1] (1:ℚ) = (5/6)^1 :=
      iter_step zoom_out 0 1 (1) ((5/6)^1) t0 (by norm_num [zoom_out, max_def])
    have t2 : zoom_out^[2] (1:ℚ) = (5/6)^2 :=
      iter_step zoom_out 1 1 ((5/6)^1) ((5/6)^2) t1 (by norm_num [zoom_out, max_def])
    have t3 : zoom_out^[3] (1:ℚ) = (5/6)^3 :=
      iter_step zoom_out 2 1 ((5/6)^2) ((5/6)^3) t2 (by norm_num [zoom_out, max_def])
    have t4 : zoom_out^[4] (1:ℚ) = (5/6)^4 :=
      iter_step zoom_out 3 1 ((5/6)^3) ((5/6)^4) t3 (by norm_num [zoom_out, max_def])
    have t5 : zoom_out^[5] (1:ℚ) = (5/6)^5 :=
      iter_step zoom_out 4 1 ((5/6)^4) ((5/6)^5) t4 (by norm_num [zoom_out, max_def])
    have t6 : zoom_out^[6] (1:ℚ) = (5/6)^6 :=
      iter_step zoom_out 5 1 ((5/6)^5) ((5/6)^6) t5 (by norm_num [zoom_out, max_def])
    have t7 : zoom_out^[7] (1:ℚ) = (5/6)^7 :=
      iter_step zoom_out 6 1 ((5/6)^6) ((5/6)^7) t6 (by norm_num [zoom_out, max_def])
    have t8 : zoom_out^[8] (1:ℚ) = (5/6)^8 :=
      iter_step zoom_out 7 1 ((5/6)^7) ((5/6)^8) t7 (by norm_num [zoom_out, max_def])
    have t9 : zoom_out^[9] (1:ℚ) = (5/6)^9 :=
      iter_step zoom_out 8 1 ((5/6)^8) ((5/6)^9) t8 (by norm_num [zoom_out, max_def])
    have t10 : zoom_out^[10] (1:ℚ) = (5/6)^10 :=
      iter_step zoom_out 9 1 ((5/6)^9) ((5/6)^10) t9 (by norm_num [zoom_out, max_def])
    have t11 : zoom_out^[11] (1:ℚ) = (5/6)^11 :=
      iter_step zoom_out 10 1 ((5/6)^10) ((5/6)^11) t10 (by norm_num [zoom_out, max_def])
    have t12 : zoom_out^[12] (1:ℚ) = (5/6)^12 :=
      iter_step zoom_out 11 1 ((5/6)^11) ((5/6)^12) t11 (by norm_num [zoom_out, max_def])
    have t13 : zoom_out^[13] (1:ℚ) = (5/6)^13 :=
      iter_step zoom_out 12 1 ((5/6)^12) ((5/6)^13) t12 (by norm_num [zoom_out, max_def])
    have t14 : zoom_out^[14] (1:ℚ) = (5/6)^14 :=
      iter_step zoom_out 13 1 ((5/6)^13) ((5/6)^14) t13 (by norm_num [zoom_out, max_def])
    have t15 : zoom_out^[15] (1:ℚ) = (5/6)^15 :=
      iter_step zoom_out 14 1 ((5/6)^14) ((5/6)^15) t14 (by norm_num [zoom_out, max_def])
    have t16 : zoom_out^[16] (1:ℚ) = (5/6)^16 :=
      iter_step zoom_out 15 1 ((5/6)^15) ((5/6)^16) t15 (by norm_num [zoom_out, max_def])
    have t17 : zoom_out^[17] (1:ℚ) = 0.05 :=
      iter_step zoom_out 16 1 ((5/6)^16) (0.05) t16 (by norm_num [zoom_out, max_def])
    exact t17
  · intro m
    induction m with
    | zero => norm_num
    | succ k ihk =>
      rw [Function.iterate_succ_apply']
      exact zoom_out_ge _

/-- C9 witness: the per-operation clamp equations instantiated at zoom 1,
and closure for the singleton sequence `[zoom_in]`. -/
theorem zoom_clamp_c9_witness :
    ((0.05:ℚ) ≤ 1 ∧ (1:ℚ) ≤ 10) ∧
    (zoom_in 1 = min (max ((1:ℚ) * 1.2) 0.05) 10 ∧
      zoom_out 1 = min (max ((1:ℚ) / 1.2) 0.05) 10 ∧
      0.05 ≤ zoom_in 1 ∧ zoom_in 1 ≤ 10 ∧ 0.05 ≤ zoom_out 1 ∧ zoom_out 1 ≤ 10) ∧
    (0.05 ≤ ([zoom_in] : List (ℚ → ℚ)).foldl (fun a f => f a) 1 ∧
      ([zoom_in] : List (ℚ → ℚ)).foldl (fun a f => f a) 1 ≤ 10) :=
  ⟨⟨by norm_num, by norm_num⟩,
    zoom_clamp_c9.1 1 (by norm_num) (by norm_num),
    zoom_clamp_c9.2.2.1 [zoom_in]
      (fun f hf => Or.inl (List.mem_singleton.1 hf)) 1 (by norm_num) (by norm_num)⟩

end DxfApp
